import Mathlib

/-!
Verification of the `unspread` spreadsheet-combining tool (src/main.rs)
against its natural-language specification.

The development shallowly embeds the two cores of the program:

* `normalize_path` (src/main.rs, lines 166-185): path normalization over
  the sequence of `std::path::Component`s of a path.  Rust's `PathBuf`
  equality compares component sequences (trailing separators are
  immaterial), and the `ends_with_slash` bookkeeping of the source only
  re-appends a trailing separator, which adds no component; so the
  embedding works on component lists.

* the per-entry combination loop of `main` (src/main.rs, lines 260-371):
  classification by file-name suffix, skip handling, header capture on
  entry index 0 and the three header policies.  The external readers
  (`data_from_csv`, `data_from_excel`) and the filesystem are modelled by
  the data each directory entry carries: its file-type query result and
  the row data (or error) its matched reader would return.
-/

/-- Path components as produced by Rust `Path::components`: the root
directory `/`, the current-directory token `.` (kept only when leading),
the parent token `..`, and normal names. -/
inductive Comp where
  | root : Comp
  | cur : Comp
  | parent : Comp
  | normal : String → Comp
deriving DecidableEq, Repr

/-- One step of the loop body of `normalize_path` (src/main.rs 169-180).
`Component::ParentDir` tries `PathBuf::pop` — which truncates to
`Path::parent`, failing exactly on the empty path and on `/` — and pushes
the `..` when the pop fails.  Every other component is pushed;
`PathBuf::push` of the root component replaces the buffer (an absolute
path replaces the receiver), every other push appends. -/
def normStep (acc : List Comp) (c : Comp) : List Comp :=
  match c with
  | Comp.parent =>
      if acc = [] ∨ acc = [Comp.root] then acc ++ [Comp.parent] else acc.dropLast
  | Comp.root => [Comp.root]
  | _ => acc ++ [c]

/-- `normalize_path` (src/main.rs 166-185) on the component sequence of a
path: fold the loop body over the components, starting from the empty
`PathBuf`. -/
def normalize_path (p : List Comp) : List Comp :=
  p.foldl normStep []

/-- Components that are neither the root nor a parent token. -/
def NoSpecial (l : List Comp) : Prop :=
  ∀ c ∈ l, c ≠ Comp.root ∧ c ≠ Comp.parent

/-- Shapes reachable as `normalize_path` accumulators: an optional
leading root, then an optional single `..`, then ordinary components. -/
inductive Shape : List Comp → Prop where
  | plain : ∀ rest, NoSpecial rest → Shape rest
  | par : ∀ rest, NoSpecial rest → Shape (Comp.parent :: rest)
  | rt : ∀ rest, NoSpecial rest → Shape (Comp.root :: rest)
  | rtpar : ∀ rest, NoSpecial rest → Shape (Comp.root :: Comp.parent :: rest)

lemma noSpecial_nil : NoSpecial [] := by
  intro c hc
  cases hc

lemma noSpecial_dropLast {l : List Comp} (h : NoSpecial l) : NoSpecial l.dropLast := by
  intro c hc
  exact h c (List.dropLast_subset l hc)

lemma noSpecial_append {l : List Comp} {c : Comp} (h : NoSpecial l)
    (h1 : c ≠ Comp.root) (h2 : c ≠ Comp.parent) : NoSpecial (l ++ [c]) := by
  intro d hd
  rcases List.mem_append.1 hd with hd | hd
  · exact h d hd
  · rcases List.mem_singleton.1 hd with rfl
    exact ⟨h1, h2⟩

lemma shape_normStep {acc : List Comp} (h : Shape acc) (c : Comp) :
    Shape (normStep acc c) := by
  cases c with
  | root => exact Shape.rt [] noSpecial_nil
  | cur =>
      cases h with
      | plain _ hr => exact Shape.plain (acc ++ [Comp.cur]) (noSpecial_append hr (by simp) (by simp))
      | par rest hr =>
          exact Shape.par (rest ++ [Comp.cur]) (noSpecial_append hr (by simp) (by simp))
      | rt rest hr =>
          exact Shape.rt (rest ++ [Comp.cur]) (noSpecial_append hr (by simp) (by simp))
      | rtpar rest hr =>
          exact Shape.rtpar (rest ++ [Comp.cur]) (noSpecial_append hr (by simp) (by simp))
  | normal s =>
      cases h with
      | plain _ hr =>
          exact Shape.plain (acc ++ [Comp.normal s]) (noSpecial_append hr (by simp) (by simp))
      | par rest hr =>
          exact Shape.par (rest ++ [Comp.normal s]) (noSpecial_append hr (by simp) (by simp))
      | rt rest hr =>
          exact Shape.rt (rest ++ [Comp.normal s]) (noSpecial_append hr (by simp) (by simp))
      | rtpar rest hr =>
          exact Shape.rtpar (rest ++ [Comp.normal s]) (noSpecial_append hr (by simp) (by simp))
  | parent =>
      show Shape (if acc = [] ∨ acc = [Comp.root] then acc ++ [Comp.parent] else acc.dropLast)
      split
      · rename_i hg
        rcases hg with rfl | rfl
        · exact Shape.par [] noSpecial_nil
        · exact Shape.rtpar [] noSpecial_nil
      · rename_i hg
        push_neg at hg
        cases h with
        | plain _ hr => exact Shape.plain acc.dropLast (noSpecial_dropLast hr)
        | par rest hr =>
            cases rest with
            | nil => exact Shape.plain [] noSpecial_nil
            | cons a t =>
                have : (Comp.parent :: a :: t).dropLast = Comp.parent :: (a :: t).dropLast := rfl
                rw [this]
                exact Shape.par _ (noSpecial_dropLast hr)
        | rt rest hr =>
            cases rest with
            | nil => exact absurd rfl hg.2
            | cons a t =>
                have : (Comp.root :: a :: t).dropLast = Comp.root :: (a :: t).dropLast := rfl
                rw [this]
                exact Shape.rt _ (noSpecial_dropLast hr)
        | rtpar rest hr =>
            cases rest with
            | nil => exact Shape.rt [] noSpecial_nil
            | cons a t =>
                have : (Comp.root :: Comp.parent :: a :: t).dropLast
                    = Comp.root :: Comp.parent :: (a :: t).dropLast := rfl
                rw [this]
                exact Shape.rtpar _ (noSpecial_dropLast hr)

lemma shape_foldl : ∀ (p : List Comp) (acc : List Comp), Shape acc →
    Shape (List.foldl normStep acc p) := by
  intro p
  induction p with
  | nil => intro acc h; exact h
  | cons c t ih =>
      intro acc h
      exact ih (normStep acc c) (shape_normStep h c)

lemma foldl_noSpecial : ∀ (rest acc : List Comp), NoSpecial rest →
    List.foldl normStep acc rest = acc ++ rest := by
  intro rest
  induction rest with
  | nil => intro acc _; simp
  | cons c t ih =>
      intro acc h
      have hc := h c (List.mem_cons_self c t)
      have ht : NoSpecial t := fun d hd => h d (List.mem_cons_of_mem c hd)
      have hstep : normStep acc c = acc ++ [c] := by
        cases c with
        | root => exact absurd rfl hc.1
        | parent => exact absurd rfl hc.2
        | cur => rfl
        | normal s => rfl
      rw [List.foldl_cons, hstep, ih (acc ++ [c]) ht, List.append_assoc]
      rfl

lemma shape_fixed {l : List Comp} (h : Shape l) : List.foldl normStep [] l = l := by
  cases h with
  | plain _ hr =>
      rw [foldl_noSpecial l [] hr]
      rfl
  | par rest hr =>
      rw [List.foldl_cons]
      have : normStep [] Comp.parent = [Comp.parent] := rfl
      rw [this, foldl_noSpecial rest [Comp.parent] hr]
      rfl
  | rt rest hr =>
      rw [List.foldl_cons]
      have : normStep [] Comp.root = [Comp.root] := rfl
      rw [this, foldl_noSpecial rest [Comp.root] hr]
      rfl
  | rtpar rest hr =>
      rw [List.foldl_cons, List.foldl_cons]
      have h1 : normStep [] Comp.root = [Comp.root] := rfl
      have h2 : normStep [Comp.root] Comp.parent = [Comp.root, Comp.parent] := rfl
      rw [h1, h2, foldl_noSpecial rest [Comp.root, Comp.parent] hr]
      rfl

lemma parents_fold : ∀ n : Nat,
    List.foldl normStep [] (List.replicate n Comp.parent)
      = (if n % 2 = 1 then [Comp.parent] else []) ∧
    List.foldl normStep [Comp.parent] (List.replicate n Comp.parent)
      = (if n % 2 = 1 then [] else [Comp.parent]) := by
  intro n
  induction n with
  | zero => constructor <;> rfl
  | succ n ih =>
      have hrep : List.replicate (n + 1) Comp.parent
          = Comp.parent :: List.replicate n Comp.parent := rfl
      constructor
      · rw [hrep, List.foldl_cons]
        have : normStep [] Comp.parent = [Comp.parent] := rfl
        rw [this, ih.2]
        rcases Nat.mod_two_eq_zero_or_one n with h | h
        · have h1 : (n + 1) % 2 = 1 := by omega
          simp [h, h1]
        · have h0 : (n + 1) % 2 = 0 := by omega
          simp [h, h0]
      · rw [hrep, List.foldl_cons]
        have : normStep [Comp.parent] Comp.parent = [] := rfl
        rw [this, ih.1]
        rcases Nat.mod_two_eq_zero_or_one n with h | h
        · have h1 : (n + 1) % 2 = 1 := by omega
          simp [h, h1]
        · have h0 : (n + 1) % 2 = 0 := by omega
          simp [h, h0]

/-- Claim C8: `normalize_path` is idempotent: normalizing an already
normalized component sequence changes nothing. -/
theorem normalize_path_idempotent (p : List Comp) :
    normalize_path (normalize_path p) = normalize_path p := by
  unfold normalize_path
  exact shape_fixed (shape_foldl p [] (Shape.plain [] noSpecial_nil))

/-- Claim C5 (counterexample): the claim predicts that all leading `..`
components are preserved, so `../../a` would normalize to itself; the
code instead pops the previously kept `..` and yields `a`. -/
theorem normalize_leading_parents_cex :
    normalize_path [Comp.parent, Comp.parent, Comp.normal "a"] = [Comp.normal "a"] ∧
    normalize_path [Comp.parent, Comp.parent, Comp.normal "a"]
      ≠ [Comp.parent, Comp.parent, Comp.normal "a"] := by
  constructor
  · rfl
  · decide

/-- Claim C5 (amended): on a `..` component the code pops the last pushed
component whatever it is — possibly a previously kept `..` — when one
exists, else keeps the `..`.  A real name popped by a later `..` behaves
as the claim says (`a/b/../c` gives `a/c`), but a run of `n` leading `..`
components followed by real names collapses pairwise, leaving `n % 2`
parent tokens, not `n`. -/
theorem normalize_parent_components :
    (∀ a b c : String,
        normalize_path [Comp.normal a, Comp.normal b, Comp.parent, Comp.normal c]
          = [Comp.normal a, Comp.normal c]) ∧
    (∀ (n : Nat) (names : List String),
        normalize_path (List.replicate n Comp.parent ++ names.map Comp.normal)
          = (if n % 2 = 1 then [Comp.parent] else []) ++ names.map Comp.normal) := by
  constructor
  · intro a b c
    rfl
  · intro n names
    unfold normalize_path
    rw [List.foldl_append, (parents_fold n).1]
    have hns : NoSpecial (names.map Comp.normal) := by
      intro c hc
      rcases List.mem_map.1 hc with ⟨s, _, rfl⟩
      exact ⟨by simp, by simp⟩
    rw [foldl_noSpecial _ _ hns]

/-- The three header policies (src/main.rs 27-32). -/
inductive HeadersMode where
  | Combine : HeadersMode
  | Remove : HeadersMode
  | Ignore : HeadersMode
deriving DecidableEq, Repr

/-- `From<u8> for HeadersMode` (src/main.rs 34-43): out-of-range raw
values default to `Combine`. -/
def headersModeFromU8 (value : Nat) : HeadersMode :=
  match value with
  | 0 => HeadersMode.Combine
  | 1 => HeadersMode.Remove
  | 2 => HeadersMode.Ignore
  | _ => HeadersMode.Combine

/-- Result of `DirEntry::file_type` for an entry (src/main.rs 262-284):
the query succeeded and the entry is a directory, succeeded and it is
not, or the query failed. -/
inductive FType where
  | dir : FType
  | file : FType
  | typeErr : FType
deriving DecidableEq, Repr

/-- A directory entry as the combination loop sees it.  The external
readers (`data_from_csv`, `data_from_excel`) and the filesystem are
black boxes, so the entry carries the outcome its matched reader would
produce: rows of text cells, or a read-error message. -/
structure Entry where
  name : String
  ftype : FType
  readResult : Except String (List (List String))

/-- The run-scoped mutable state of `main`: `headers` (src/main.rs 257)
and `combined_spreadsheet_data` (src/main.rs 258). -/
structure EngineState where
  headers : List String
  combined : List (List String)
deriving DecidableEq, Repr

/-- Which reader the extension dispatch picks. -/
inductive ReaderChoice where
  | csv : ReaderChoice
  | excel : ReaderChoice
  | unsupported : ReaderChoice
deriving DecidableEq, Repr

/-- Rust `str::ends_with` for string suffixes: a suffix test on the
character sequence. -/
def strEndsWith (s suffix : String) : Bool :=
  List.isSuffixOf suffix.data s.data

/-- The extension dispatch of the loop (src/main.rs 289-304): `.csv`
(with dot) goes to the csv reader; `.ods` (with dot) or the bare
suffixes `xls`, `xlsx`, `xlsm`, `xlsb`, `xla`, `xlam` (no dot in the
source) go to the excel reader; everything else is unsupported. -/
def chooseReader (name : String) : ReaderChoice :=
  if strEndsWith name ".csv" then ReaderChoice.csv
  else if strEndsWith name ".ods" || strEndsWith name "xls" || strEndsWith name "xlsx"
      || strEndsWith name "xlsm" || strEndsWith name "xlsb" || strEndsWith name "xla"
      || strEndsWith name "xlam" then ReaderChoice.excel
  else ReaderChoice.unsupported

/-- The `HeadersMode::Remove` arm (src/main.rs 341-358): keep the table
unchanged when the first row's length differs from the captured headers
or some corresponding pair of cells differs; otherwise remove the first
row. -/
def removeRows (headers firstRow : List String) (data : List (List String)) :
    List (List String) :=
  if firstRow.length ≠ headers.length then data
  else if (firstRow.zip headers).any (fun p => p.1 != p.2) then data
  else data.tail

/-- The `headers_mode` match of the loop (src/main.rs 339-368), computing
`final_spreadsheet_data` from the freshly read table. -/
def applyMode (mode : HeadersMode) (index : Nat) (headers firstRow : List String)
    (data : List (List String)) : List (List String) :=
  match mode with
  | HeadersMode.Ignore => data
  | HeadersMode.Remove => removeRows headers firstRow data
  | HeadersMode.Combine => if index = 0 then data else data.tail

/-- One iteration of the entry loop of `main` (src/main.rs 260-371) at
entry position `index`: returns the updated engine state and the
diagnostic lines printed for this entry.  A successfully determined
directory is skipped; a failed file-type query prints the same
"Skipping directory" line but falls through (the `Err` arm has no
`continue`); then extension dispatch, the read, the empty check, header
capture on index 0, and the policy logic. -/
def processEntry (mode : HeadersMode) (index : Nat) (st : EngineState) (e : Entry) :
    EngineState × List String :=
  if e.ftype = FType.dir then
    (st, ["Skipping directory " ++ e.name])
  else
    let typeMsgs : List String :=
      if e.ftype = FType.typeErr then ["Skipping directory " ++ e.name] else []
    if chooseReader e.name = ReaderChoice.unsupported then
      (st, typeMsgs ++ ["Unsupported file type: " ++ e.name])
    else
      match e.readResult with
      | Except.error msg =>
          (st, typeMsgs ++ ["Error occurred while reading file " ++ e.name ++ " : " ++ msg])
      | Except.ok data =>
          match data.head? with
          | none => (st, typeMsgs ++ ["Skipping " ++ e.name ++ " since it is empty"])
          | some firstRow =>
              let headers := if index = 0 then firstRow else st.headers
              ({ headers := headers,
                 combined := st.combined ++ applyMode mode index headers firstRow data },
               typeMsgs)

/-- The entry loop of `main` from a given entry position and state:
`enumerate` supplies consecutive indices to `processEntry`. -/
def runEntries (mode : HeadersMode) : Nat → EngineState → List Entry →
    EngineState × List String
  | _, st, [] => (st, [])
  | i, st, e :: rest =>
      let step := processEntry mode i st e
      let next := runEntries mode (i + 1) step.1 rest
      (next.1, step.2 ++ next.2)

/-- A whole run of the combination engine over the directory's entry
sequence, starting from empty headers and an empty combined table
(src/main.rs 257-258). -/
def runDir (mode : HeadersMode) (entries : List Entry) : EngineState × List String :=
  runEntries mode 0 { headers := [], combined := [] } entries

/-- Rows the matched reader produced for an entry (empty on error). -/
def dataOf (e : Entry) : List (List String) :=
  match e.readResult with
  | Except.ok d => d
  | Except.error _ => []

/-- An entry the loop combines: file type determined as non-directory,
supported extension, and a successful, non-empty read. -/
def GoodRead (e : Entry) : Prop :=
  e.ftype = FType.file ∧ chooseReader e.name ≠ ReaderChoice.unsupported ∧
    ∃ d, e.readResult = Except.ok d ∧ d ≠ []

/-- The claim C2 skip causes for the first directory entry: unsupported
extension, unreadable, or empty. -/
def SkipCause (e : Entry) : Prop :=
  chooseReader e.name = ReaderChoice.unsupported ∨
    (∃ m, e.readResult = Except.error m) ∨ e.readResult = Except.ok []

lemma runEntries_cons (mode : HeadersMode) (i : Nat) (st : EngineState)
    (e : Entry) (rest : List Entry) :
    (runEntries mode i st (e :: rest)).1
      = (runEntries mode (i + 1) (processEntry mode i st e).1 rest).1 := rfl

lemma processEntry_skip (mode : HeadersMode) (i : Nat) (st : EngineState) (e : Entry)
    (h : e.ftype = FType.dir ∨ chooseReader e.name = ReaderChoice.unsupported ∨
      (∃ m, e.readResult = Except.error m) ∨ e.readResult = Except.ok []) :
    (processEntry mode i st e).1 = st := by
  unfold processEntry
  by_cases hdir : e.ftype = FType.dir
  · simp [hdir]
  · rw [if_neg hdir]
    by_cases hcr : chooseReader e.name = ReaderChoice.unsupported
    · simp [hcr]
    · rw [if_neg hcr]
      rcases h with h | h | ⟨m, hm⟩ | hm
      · exact absurd h hdir
      · exact absurd h hcr
      · simp [hm]
      · simp [hm]

lemma processEntry_ok (mode : HeadersMode) (i : Nat) (st : EngineState) (e : Entry)
    (d : List (List String)) (f : List String)
    (ht : e.ftype ≠ FType.dir) (hc : chooseReader e.name ≠ ReaderChoice.unsupported)
    (hd : e.readResult = Except.ok d) (hf : d.head? = some f) :
    (processEntry mode i st e).1
      = { headers := if i = 0 then f else st.headers,
          combined := st.combined
            ++ applyMode mode i (if i = 0 then f else st.headers) f d } := by
  unfold processEntry
  rw [if_neg ht, if_neg hc, hd]
  simp [hf]

lemma processEntry_headers (mode : HeadersMode) (i : Nat) (st : EngineState) (e : Entry)
    (h : i ≠ 0) : (processEntry mode i st e).1.headers = st.headers := by
  unfold processEntry
  by_cases hdir : e.ftype = FType.dir
  · simp [hdir]
  · rw [if_neg hdir]
    by_cases hcr : chooseReader e.name = ReaderChoice.unsupported
    · simp [hcr]
    · rw [if_neg hcr]
      cases hm : e.readResult with
      | error m => simp
      | ok d =>
          cases hhd : d.head? with
          | none => simp [hhd]
          | some f => simp [hhd, h]

lemma runEntries_headers (mode : HeadersMode) : ∀ (es : List Entry) (i : Nat)
    (st : EngineState), i ≠ 0 → (runEntries mode i st es).1.headers = st.headers := by
  intro es
  induction es with
  | nil => intro i st _; rfl
  | cons e rest ih =>
      intro i st hi
      rw [runEntries_cons, ih (i + 1) _ (Nat.succ_ne_zero i)]
      exact processEntry_headers mode i st e hi

lemma zip_self_no_diff : ∀ f : List String, (f.zip f).any (fun p => p.1 != p.2) = false := by
  intro f
  induction f with
  | nil => rfl
  | cons a t ih => simp [List.zip_cons_cons, ih]

lemma eq_of_zip_no_diff : ∀ f h : List String, f.length = h.length →
    (f.zip h).any (fun p => p.1 != p.2) = false → f = h := by
  intro f
  induction f with
  | nil =>
      intro h hl _
      cases h with
      | nil => rfl
      | cons b t => exact absurd hl (by simp)
  | cons a t ih =>
      intro h hl hz
      cases h with
      | nil => exact absurd hl (by simp)
      | cons b u =>
          rw [List.zip_cons_cons, List.any_cons] at hz
          have hab : (a != b) = false := by
            cases hx : a != b
            · rfl
            · rw [hx] at hz; exact absurd hz (by simp)
          have ht : (t.zip u).any (fun p => p.1 != p.2) = false := by
            cases hx : (t.zip u).any (fun p => p.1 != p.2)
            · rfl
            · rw [hx] at hz; exact absurd hz (by simp)
          have hav : a = b := by
            rw [bne_eq_false_iff_eq] at hab
            exact hab
          rw [hav, ih u (by simpa using hl) ht]

lemma removeRows_self (f : List String) (d : List (List String)) :
    removeRows f f d = d.tail := by
  unfold removeRows
  rw [if_neg (by simp), zip_self_no_diff]
  rfl

lemma removeRows_keep (h f : List String) (d : List (List String)) (hne : f ≠ h) :
    removeRows h f d = d := by
  unfold removeRows
  by_cases hl : f.length = h.length
  · rw [if_neg (by simpa using hl)]
    cases hz : (f.zip h).any (fun p => p.1 != p.2) with
    | true => simp
    | false => exact absurd (eq_of_zip_no_diff f h hl hz) hne
  · rw [if_pos (by simpa using hl)]

lemma head?_append_left {α : Type} (l t : List α) (h : l ≠ []) :
    (l ++ t).head? = l.head? := by
  cases l with
  | nil => exact absurd rfl h
  | cons a u => rfl

lemma runEntries_combine_tail : ∀ (es : List Entry) (i : Nat) (st : EngineState),
    1 ≤ i → (∀ e ∈ es, GoodRead e) →
    (runEntries HeadersMode.Combine i st es).1.combined
      = st.combined ++ (es.map fun e => (dataOf e).tail).flatten := by
  intro es
  induction es with
  | nil => intro i st _ _; simp [runEntries]
  | cons e rest ih =>
      intro i st hi hg
      have hge := hg e (List.mem_cons_self e rest)
      rcases hge with ⟨hft, hcr, d, hd, hdne⟩
      obtain ⟨f, hf⟩ : ∃ f, d.head? = some f := by
        cases d with
        | nil => exact absurd rfl hdne
        | cons a t => exact ⟨a, rfl⟩
      rw [runEntries_cons,
        ih (i + 1) _ (by omega) (fun x hx => hg x (List.mem_cons_of_mem e hx)),
        processEntry_ok HeadersMode.Combine i st e d f (by simp [hft]) hcr hd hf]
      have hi0 : i ≠ 0 := by omega
      simp only [applyMode, if_neg hi0, dataOf, hd, List.map_cons, List.flatten_cons]
      rw [List.append_assoc]

lemma runEntries_nil (mode : HeadersMode) (i : Nat) (st : EngineState) :
    runEntries mode i st [] = (st, []) := rfl

/-- Claim C1 (counterexample): two matching-header files with r = 2 rows
each yield 2 combined rows under Remove, not the claimed 2r-1 = 3: the
Header is captured from the first file's first row and then matches it,
so the first file is stripped too. -/
theorem remove_matching_headers_cex :
    (runDir HeadersMode.Remove
      [{ name := "a.csv", ftype := FType.file, readResult := Except.ok [["h"], ["x"]] },
       { name := "b.csv", ftype := FType.file, readResult := Except.ok [["h"], ["y"]] }]
      ).1.combined.length = 2 ∧ (2 : Nat) ≠ 2 * 2 - 1 := by
  constructor
  · rfl
  · decide

/-- Claim C1 (amended): under the Remove policy, combining two
successfully-read files whose first rows are cell-wise identical, each
with exactly r ≥ 1 rows (the first file being the first directory
entry), yields (r-1) + (r-1) = 2r-2 combined rows: the first file's own
first row is also removed, since it equals the Header just captured
from it. -/
theorem remove_matching_headers_two_files (e0 e1 : Entry)
    (d0 d1 : List (List String)) (r : Nat) (hr : 1 ≤ r)
    (h0t : e0.ftype = FType.file) (h0c : chooseReader e0.name ≠ ReaderChoice.unsupported)
    (h0d : e0.readResult = Except.ok d0)
    (h1t : e1.ftype = FType.file) (h1c : chooseReader e1.name ≠ ReaderChoice.unsupported)
    (h1d : e1.readResult = Except.ok d1)
    (hl0 : d0.length = r) (hl1 : d1.length = r) (hh : d0.head? = d1.head?) :
    (runDir HeadersMode.Remove [e0, e1]).1.combined.length = (r - 1) + (r - 1) := by
  have hd0ne : d0 ≠ [] := by
    intro hnil
    rw [hnil] at hl0
    simp at hl0
    omega
  obtain ⟨f0, hf0⟩ : ∃ f, d0.head? = some f := by
    cases d0 with
    | nil => exact absurd rfl hd0ne
    | cons a t => exact ⟨a, rfl⟩
  have hf1 : d1.head? = some f0 := by rw [← hh]; exact hf0
  unfold runDir
  rw [runEntries_cons, runEntries_cons, runEntries_nil,
    processEntry_ok HeadersMode.Remove 0 _ e0 d0 f0 (by simp [h0t]) h0c h0d hf0]
  simp only [if_pos rfl]
  rw [processEntry_ok HeadersMode.Remove 1 _ e1 d1 f0 (by simp [h1t]) h1c h1d hf1]
  simp [applyMode, removeRows_self, List.length_tail, hl0, hl1]

/-- Claim C1 witness: the amended count at r = 2. -/
theorem remove_matching_headers_two_files_witness :
    (runDir HeadersMode.Remove
      [{ name := "a.csv", ftype := FType.file, readResult := Except.ok [["h"], ["x"]] },
       { name := "b.csv", ftype := FType.file, readResult := Except.ok [["h"], ["y"]] }]
      ).1.combined.length = (2 - 1) + (2 - 1) :=
  remove_matching_headers_two_files
    { name := "a.csv", ftype := FType.file, readResult := Except.ok [["h"], ["x"]] }
    { name := "b.csv", ftype := FType.file, readResult := Except.ok [["h"], ["y"]] }
    [["h"], ["x"]] [["h"], ["y"]] 2 (by decide) rfl (by decide) rfl rfl (by decide)
    rfl rfl rfl rfl

/-- Claim C3 (counterexample): two mismatched-header files with r = 2
rows each yield 3 combined rows under Remove, not the claimed 2r = 4:
the first file is stripped against its own captured Header. -/
theorem remove_mismatched_headers_cex :
    (runDir HeadersMode.Remove
      [{ name := "a.csv", ftype := FType.file, readResult := Except.ok [["h"], ["x"]] },
       { name := "b.csv", ftype := FType.file,
         readResult := Except.ok [["g", "g2"], ["y"]] }]
      ).1.combined.length = 3 ∧ (3 : Nat) ≠ 2 * 2 := by
  constructor
  · rfl
  · decide

/-- Claim C3 (amended): under the Remove policy, combining two
successfully-read files whose first rows differ (in length or in some
cell), each with exactly r ≥ 1 rows (the first file being the first
directory entry), yields (r-1) + r = 2r-1 combined rows: the second
file keeps its first row as data, but the first file loses its first
row to the Header comparison against itself. -/
theorem remove_mismatched_headers_two_files (e0 e1 : Entry)
    (d0 d1 : List (List String)) (f0 f1 : List String) (r : Nat) (hr : 1 ≤ r)
    (h0t : e0.ftype = FType.file) (h0c : chooseReader e0.name ≠ ReaderChoice.unsupported)
    (h0d : e0.readResult = Except.ok d0)
    (h1t : e1.ftype = FType.file) (h1c : chooseReader e1.name ≠ ReaderChoice.unsupported)
    (h1d : e1.readResult = Except.ok d1)
    (hl0 : d0.length = r) (hl1 : d1.length = r)
    (hf0 : d0.head? = some f0) (hf1 : d1.head? = some f1) (hne : f1 ≠ f0) :
    (runDir HeadersMode.Remove [e0, e1]).1.combined.length = (r - 1) + r := by
  unfold runDir
  rw [runEntries_cons, runEntries_cons, runEntries_nil,
    processEntry_ok HeadersMode.Remove 0 _ e0 d0 f0 (by simp [h0t]) h0c h0d hf0]
  simp only [if_pos rfl]
  rw [processEntry_ok HeadersMode.Remove 1 _ e1 d1 f1 (by simp [h1t]) h1c h1d hf1]
  simp [applyMode, removeRows_self, removeRows_keep f0 f1 d1 hne, List.length_tail, hl0, hl1]

/-- Claim C3 witness: the amended count at r = 2. -/
theorem remove_mismatched_headers_two_files_witness :
    (runDir HeadersMode.Remove
      [{ name := "a.csv", ftype := FType.file, readResult := Except.ok [["h"], ["x"]] },
       { name := "b.csv", ftype := FType.file,
         readResult := Except.ok [["g", "g2"], ["y"]] }]
      ).1.combined.length = (2 - 1) + 2 :=
  remove_mismatched_headers_two_files
    { name := "a.csv", ftype := FType.file, readResult := Except.ok [["h"], ["x"]] }
    { name := "b.csv", ftype := FType.file, readResult := Except.ok [["g", "g2"], ["y"]] }
    [["h"], ["x"]] [["g", "g2"], ["y"]] ["h"] ["g", "g2"] 2 (by decide) rfl (by decide)
    rfl rfl (by decide) rfl rfl rfl rfl rfl (by decide)

lemma removeRows_keep_any (h f : List String) (d : List (List String))
    (hz : (f.zip h).any (fun p => p.1 != p.2) = true) : removeRows h f d = d := by
  unfold removeRows
  by_cases hlen : f.length = h.length
  · rw [if_neg (not_not_intro hlen), hz]
    simp
  · rw [if_pos hlen]

lemma removeRows_strip (h f : List String) (d : List (List String))
    (hlen : f.length = h.length) (hz : (f.zip h).any (fun p => p.1 != p.2) = false) :
    removeRows h f d = d.tail := by
  unfold removeRows
  rw [if_neg (not_not_intro hlen), hz]
  simp

lemma flatten_tails_length (r : Nat) : ∀ es : List Entry,
    (∀ e ∈ es, ∃ d, e.readResult = Except.ok d ∧ d.length = r) →
    ((es.map fun e => (dataOf e).tail).flatten).length = es.length * (r - 1) := by
  intro es
  induction es with
  | nil => intro _; simp
  | cons e rest ih =>
      intro hg
      rcases hg e (List.mem_cons_self e rest) with ⟨d, hd, hdl⟩
      rw [List.map_cons, List.flatten_cons, List.length_append,
        ih (fun x hx => hg x (List.mem_cons_of_mem e hx))]
      simp only [dataOf, hd]
      rw [List.length_tail, hdl, List.length_cons, Nat.add_mul, Nat.one_mul]
      omega

/-- Claim C6: under the Combine policy, k supported files in order, each
read successfully with exactly r ≥ 1 rows and the first being the first
directory entry, produce r + (k-1)*(r-1) combined rows, and the first
combined row is the first file's first row.  Here the k files are
`e0 :: rest`, so k - 1 = rest.length. -/
theorem combine_policy_row_count (e0 : Entry) (rest : List Entry)
    (d0 : List (List String)) (r : Nat) (hr : 1 ≤ r)
    (h0t : e0.ftype = FType.file) (h0c : chooseReader e0.name ≠ ReaderChoice.unsupported)
    (h0d : e0.readResult = Except.ok d0) (hl0 : d0.length = r)
    (hrest : ∀ e ∈ rest, e.ftype = FType.file ∧
      chooseReader e.name ≠ ReaderChoice.unsupported ∧
      ∃ d, e.readResult = Except.ok d ∧ d.length = r) :
    (runDir HeadersMode.Combine (e0 :: rest)).1.combined.length
        = r + rest.length * (r - 1) ∧
    (runDir HeadersMode.Combine (e0 :: rest)).1.combined.head? = d0.head? := by
  have hd0ne : d0 ≠ [] := by
    intro hnil
    rw [hnil] at hl0
    simp at hl0
    omega
  obtain ⟨f0, hf0⟩ : ∃ f, d0.head? = some f := by
    cases d0 with
    | nil => exact absurd rfl hd0ne
    | cons a t => exact ⟨a, rfl⟩
  have hgood : ∀ e ∈ rest, GoodRead e := by
    intro e he
    rcases hrest e he with ⟨het, hec, d, hed, hedl⟩
    refine ⟨het, hec, d, hed, ?_⟩
    intro hnil
    rw [hnil] at hedl
    simp at hedl
    omega
  have hcomb : (runDir HeadersMode.Combine (e0 :: rest)).1.combined
      = d0 ++ (rest.map fun e => (dataOf e).tail).flatten := by
    unfold runDir
    rw [runEntries_cons,
      processEntry_ok HeadersMode.Combine 0 _ e0 d0 f0 (by simp [h0t]) h0c h0d hf0,
      runEntries_combine_tail rest 1 _ (by omega) hgood]
    simp [applyMode]
  constructor
  · rw [hcomb, List.length_append, hl0,
      flatten_tails_length r rest (fun e he => (hrest e he).2.2)]
  · rw [hcomb, head?_append_left d0 _ hd0ne]

/-- Claim C6 witness: three files of two rows each give 2 + 2*1 = 4
combined rows headed by the first file's first row. -/
theorem combine_policy_row_count_witness :
    (runDir HeadersMode.Combine
      [{ name := "a.csv", ftype := FType.file, readResult := Except.ok [["h"], ["x"]] },
       { name := "b.csv", ftype := FType.file, readResult := Except.ok [["h"], ["y"]] },
       { name := "c.csv", ftype := FType.file, readResult := Except.ok [["h"], ["z"]] }]
      ).1.combined.length = 2 + 2 * (2 - 1) ∧
    (runDir HeadersMode.Combine
      [{ name := "a.csv", ftype := FType.file, readResult := Except.ok [["h"], ["x"]] },
       { name := "b.csv", ftype := FType.file, readResult := Except.ok [["h"], ["y"]] },
       { name := "c.csv", ftype := FType.file, readResult := Except.ok [["h"], ["z"]] }]
      ).1.combined.head? = ([["h"], ["x"]] : List (List String)).head? := by
  have h := combine_policy_row_count
    { name := "a.csv", ftype := FType.file, readResult := Except.ok [["h"], ["x"]] }
    [{ name := "b.csv", ftype := FType.file, readResult := Except.ok [["h"], ["y"]] },
     { name := "c.csv", ftype := FType.file, readResult := Except.ok [["h"], ["z"]] }]
    [["h"], ["x"]] 2 (by decide) rfl (by decide) rfl rfl
    (by
      intro e he
      rcases List.mem_cons.1 he with rfl | he
      · exact ⟨rfl, by decide, [["h"], ["y"]], rfl, rfl⟩
      · rcases List.mem_cons.1 he with rfl | he
        · exact ⟨rfl, by decide, [["h"], ["z"]], rfl, rfl⟩
        · cases he)
  simpa using h

/-- Claim C2 (counterexample): when the first directory entry is skipped
(unsupported extension `x.txt`), the Combine policy still strips the
first row of a later successfully-read file: of the rows `["h"]`, `["y"]`
of `b.csv`, only `["y"]` reaches the combined table, contradicting the
claim that every row of every later file is appended. -/
theorem first_entry_skipped_cex :
    (runDir HeadersMode.Combine
      [{ name := "x.txt", ftype := FType.file, readResult := Except.ok [["a"]] },
       { name := "b.csv", ftype := FType.file, readResult := Except.ok [["h"], ["y"]] }]
      ).1.combined = [["y"]] ∧
    ["h"] ∉ (runDir HeadersMode.Combine
      [{ name := "x.txt", ftype := FType.file, readResult := Except.ok [["a"]] },
       { name := "b.csv", ftype := FType.file, readResult := Except.ok [["h"], ["y"]] }]
      ).1.combined := by
  constructor
  · rfl
  · decide

/-- Claim C2 (amended): if the first directory entry is skipped
(unsupported extension, unreadable, or empty), no later file's first
row is ever captured as Header — the headers stay empty for every
policy — but under the Combine policy every later successfully-read
file still has its first row stripped: the `index == 0` branch never
re-fires, so the `else` branch removes the first row, and the combined
table is the concatenation of the tails of the later files' tables. -/
theorem first_entry_skipped_behavior (e0 : Entry) (hskip : SkipCause e0) :
    (∀ (mode : HeadersMode) (rest : List Entry),
      (runDir mode (e0 :: rest)).1.headers = []) ∧
    (∀ rest : List Entry, (∀ e ∈ rest, GoodRead e) →
      (runDir HeadersMode.Combine (e0 :: rest)).1.combined
        = (rest.map fun e => (dataOf e).tail).flatten) := by
  have hstep : ∀ (mode : HeadersMode) (i : Nat) (st : EngineState),
      (processEntry mode i st e0).1 = st := fun mode i st =>
    processEntry_skip mode i st e0 (Or.inr hskip)
  constructor
  · intro mode rest
    unfold runDir
    rw [runEntries_cons, hstep]
    exact runEntries_headers mode rest 1 _ (by omega)
  · intro rest hg
    unfold runDir
    rw [runEntries_cons, hstep, runEntries_combine_tail rest 1 _ (by omega) hg]
    rfl

/-- Claim C2 witness: a skipped unsupported first entry followed by one
two-row csv file leaves the headers empty and yields only the tail row. -/
theorem first_entry_skipped_behavior_witness :
    (runDir HeadersMode.Combine
      [{ name := "x.txt", ftype := FType.file, readResult := Except.ok [["a"]] },
       { name := "c.csv", ftype := FType.file, readResult := Except.ok [["h"], ["w"]] }]
      ).1.headers = [] ∧
    (runDir HeadersMode.Combine
      [{ name := "x.txt", ftype := FType.file, readResult := Except.ok [["a"]] },
       { name := "c.csv", ftype := FType.file, readResult := Except.ok [["h"], ["w"]] }]
      ).1.combined = [["w"]] := by
  have h := first_entry_skipped_behavior
    { name := "x.txt", ftype := FType.file, readResult := Except.ok [["a"]] }
    (Or.inl (by decide))
  refine ⟨h.1 HeadersMode.Combine _, ?_⟩
  have hc := h.2 [{ name := "c.csv", ftype := FType.file, readResult := Except.ok [["h"], ["w"]] }]
    (by
      intro e he
      rcases List.mem_cons.1 he with rfl | he
      · exact ⟨rfl, by decide, [["h"], ["w"]], rfl, by decide⟩
      · cases he)
  exact hc.trans (by decide)

/-- Claim C7: under the Remove policy, for a non-first entry whose table
t was read successfully and is non-empty, the engine compares t's first
row to the run headers: if the lengths differ or some corresponding
pair of cells differs, t is appended unchanged; if the lengths match
and every cell matches, t is appended with its first row removed.  The
headers are left untouched either way. -/
theorem remove_policy_reconcile (i : Nat) (st : EngineState) (e : Entry)
    (t : List (List String)) (f : List String)
    (hi : 1 ≤ i) (ht : e.ftype = FType.file)
    (hc : chooseReader e.name ≠ ReaderChoice.unsupported)
    (hd : e.readResult = Except.ok t) (hf : t.head? = some f) :
    ((f.length ≠ st.headers.length ∨ ∃ p ∈ f.zip st.headers, p.1 ≠ p.2) →
        (processEntry HeadersMode.Remove i st e).1.combined = st.combined ++ t) ∧
    ((f.length = st.headers.length ∧ ∀ p ∈ f.zip st.headers, p.1 = p.2) →
        (processEntry HeadersMode.Remove i st e).1.combined = st.combined ++ t.tail) ∧
    (processEntry HeadersMode.Remove i st e).1.headers = st.headers := by
  have hi0 : i ≠ 0 := by omega
  rw [processEntry_ok HeadersMode.Remove i st e t f (by simp [ht]) hc hd hf]
  simp only [if_neg hi0, applyMode]
  refine ⟨?_, ?_, by trivial⟩
  · intro hcond
    rcases hcond with hlen | ⟨p, hp, hpe⟩
    · rw [removeRows_keep st.headers f t]
      intro hfh
      rw [hfh] at hlen
      exact hlen rfl
    · rw [removeRows_keep_any st.headers f t
        (List.any_eq_true.2 ⟨p, hp, by simpa [bne_iff_ne] using hpe⟩)]
  · rintro ⟨hlen, hall⟩
    have hz : (f.zip st.headers).any (fun p => p.1 != p.2) = false := by
      cases hx : (f.zip st.headers).any (fun p => p.1 != p.2) with
      | false => rfl
      | true =>
          rcases List.any_eq_true.1 hx with ⟨p, hp, hpe⟩
          exact absurd (hall p hp) (by simpa [bne_iff_ne] using hpe)
    rw [removeRows_strip st.headers f t hlen hz]

/-- Claim C7 witness: with headers `["h"]` and matching table
`[["h"], ["y"]]` the table is appended stripped of its first row. -/
theorem remove_policy_reconcile_witness :
    (processEntry HeadersMode.Remove 1 { headers := ["h"], combined := [] }
      { name := "b.csv", ftype := FType.file, readResult := Except.ok [["h"], ["y"]] }
      ).1.combined = [] ++ ([["h"], ["y"]] : List (List String)).tail :=
  (remove_policy_reconcile 1 { headers := ["h"], combined := [] }
    { name := "b.csv", ftype := FType.file, readResult := Except.ok [["h"], ["y"]] }
    [["h"], ["y"]] ["h"] (by decide) rfl (by decide) rfl rfl).2.1 ⟨rfl, by decide⟩

/-- Claim C4 (counterexample): the name "report_xls" ends in none of the
eight dotted extensions, so the claim says it is skipped as unsupported;
the source checks the excel suffixes without a dot, so it is sent to
the binary-spreadsheet reader. -/
theorem classify_by_suffix_cex :
    chooseReader "report_xls" = ReaderChoice.excel ∧
    strEndsWith "report_xls" ".csv" = false ∧ strEndsWith "report_xls" ".ods" = false ∧
    strEndsWith "report_xls" ".xls" = false ∧ strEndsWith "report_xls" ".xlsx" = false ∧
    strEndsWith "report_xls" ".xlsm" = false ∧ strEndsWith "report_xls" ".xlsb" = false ∧
    strEndsWith "report_xls" ".xla" = false ∧ strEndsWith "report_xls" ".xlam" = false := by
  decide

/-- Claim C4 (amended): classification is by filename suffix,
case-sensitively: a name ending in `.csv` (dot included) goes to the
text-delimited reader; otherwise a name ending in `.ods` (dot included)
or in the bare suffixes `xls`, `xlsx`, `xlsm`, `xlsb`, `xla`, `xlam`
(no dot required by the source) goes to the binary-spreadsheet reader;
every other entry is skipped as unsupported and contributes no rows. -/
theorem classify_by_suffix (s : String) :
    (strEndsWith s ".csv" = true → chooseReader s = ReaderChoice.csv) ∧
    (strEndsWith s ".csv" = false →
      (strEndsWith s ".ods" || strEndsWith s "xls" || strEndsWith s "xlsx"
        || strEndsWith s "xlsm" || strEndsWith s "xlsb" || strEndsWith s "xla"
        || strEndsWith s "xlam") = true → chooseReader s = ReaderChoice.excel) ∧
    (strEndsWith s ".csv" = false →
      (strEndsWith s ".ods" || strEndsWith s "xls" || strEndsWith s "xlsx"
        || strEndsWith s "xlsm" || strEndsWith s "xlsb" || strEndsWith s "xla"
        || strEndsWith s "xlam") = false → chooseReader s = ReaderChoice.unsupported) ∧
    (∀ (mode : HeadersMode) (i : Nat) (st : EngineState) (e : Entry),
      chooseReader e.name = ReaderChoice.unsupported → (processEntry mode i st e).1 = st) := by
  refine ⟨?_, ?_, ?_, ?_⟩
  · intro h
    simp [chooseReader, h]
  · intro h1 h2
    simp [chooseReader, h1, h2]
  · intro h1 h2
    simp [chooseReader, h1, h2]
  · intro mode i st e hcu
    exact processEntry_skip mode i st e (Or.inr (Or.inl hcu))

/-- Claim C4 witness: one concrete name per classification branch, and
an unsupported entry leaving the state untouched. -/
theorem classify_by_suffix_witness :
    chooseReader "data.csv" = ReaderChoice.csv ∧
    chooseReader "book.xlsx" = ReaderChoice.excel ∧
    chooseReader "notes.txt" = ReaderChoice.unsupported ∧
    (processEntry HeadersMode.Ignore 0 { headers := [], combined := [] }
      { name := "notes.txt", ftype := FType.file, readResult := Except.ok [["a"]] }).1
      = { headers := [], combined := [] } :=
  ⟨(classify_by_suffix "data.csv").1 (by decide),
   (classify_by_suffix "book.xlsx").2.1 (by decide) (by decide),
   (classify_by_suffix "notes.txt").2.2.1 (by decide) (by decide),
   (classify_by_suffix "notes.txt").2.2.2 HeadersMode.Ignore 0
     { headers := [], combined := [] }
     { name := "notes.txt", ftype := FType.file, readResult := Except.ok [["a"]] }
     (by decide)⟩

/-- Claim C9: an entry whose matched reader returns a read error is
skipped with a recorded message, the engine state (headers and combined
table) is unchanged by that entry, and the run continues with the next
entry at the next index — a per-file read failure never aborts the
run. -/
theorem read_error_skips_and_continues (mode : HeadersMode) (i : Nat) (st : EngineState)
    (e : Entry) (m : String) (rest : List Entry)
    (ht : e.ftype ≠ FType.dir) (hc : chooseReader e.name ≠ ReaderChoice.unsupported)
    (hd : e.readResult = Except.error m) :
    (processEntry mode i st e).1 = st ∧
    ("Error occurred while reading file " ++ e.name ++ " : " ++ m)
      ∈ (processEntry mode i st e).2 ∧
    (runEntries mode i st (e :: rest)).1 = (runEntries mode (i + 1) st rest).1 := by
  have h1 : (processEntry mode i st e).1 = st :=
    processEntry_skip mode i st e (Or.inr (Or.inr (Or.inl ⟨m, hd⟩)))
  refine ⟨h1, ?_, ?_⟩
  · simp [processEntry, ht, hc, hd]
  · rw [runEntries_cons, h1]

/-- Claim C9 witness: a read-error csv entry leaves the initial state
unchanged, records the error line, and the run proceeds to the rest. -/
theorem read_error_skips_and_continues_witness :
    (processEntry HeadersMode.Combine 0 { headers := [], combined := [] }
      { name := "bad.csv", ftype := FType.file, readResult := Except.error "io" }).1
      = { headers := [], combined := [] } ∧
    ("Error occurred while reading file " ++ "bad.csv" ++ " : " ++ "io")
      ∈ (processEntry HeadersMode.Combine 0 { headers := [], combined := [] }
        { name := "bad.csv", ftype := FType.file, readResult := Except.error "io" }).2 ∧
    (runEntries HeadersMode.Combine 0 { headers := [], combined := [] }
      [{ name := "bad.csv", ftype := FType.file, readResult := Except.error "io" }]).1
      = (runEntries HeadersMode.Combine 1 { headers := [], combined := [] } []).1 :=
  read_error_skips_and_continues HeadersMode.Combine 0 { headers := [], combined := [] }
    { name := "bad.csv", ftype := FType.file, readResult := Except.error "io" }
    "io" [] (by decide) (by decide) rfl

/-- Claim C10: an entry whose file-type query fails gets the
"Skipping directory" diagnostic printed but is not skipped — it is
classified and processed exactly like a regular file; only an entry
whose type is successfully determined to be a directory is skipped at
the classification step, with that same diagnostic as its only
output. -/
theorem ftype_error_not_skipped (mode : HeadersMode) (i : Nat) (st : EngineState)
    (e : Entry) :
    (e.ftype = FType.typeErr →
      ("Skipping directory " ++ e.name) ∈ (processEntry mode i st e).2 ∧
      (processEntry mode i st e).1
        = (processEntry mode i st { e with ftype := FType.file }).1) ∧
    (e.ftype = FType.dir →
      (processEntry mode i st e).1 = st ∧
      (processEntry mode i st e).2 = ["Skipping directory " ++ e.name]) := by
  constructor
  · intro hte
    constructor
    · by_cases hcr : chooseReader e.name = ReaderChoice.unsupported
      · simp [processEntry, hte, hcr]
      · cases hrr : e.readResult with
        | error m => simp [processEntry, hte, hcr, hrr]
        | ok d =>
            cases hd : d.head? with
            | none => simp [processEntry, hte, hcr, hrr, hd]
            | some f => simp [processEntry, hte, hcr, hrr, hd]
    · by_cases hcr : chooseReader e.name = ReaderChoice.unsupported
      · simp [processEntry, hte, hcr]
      · cases hrr : e.readResult with
        | error m => simp [processEntry, hte, hcr, hrr]
        | ok d =>
            cases hd : d.head? with
            | none => simp [processEntry, hte, hcr, hrr, hd]
            | some f => simp [processEntry, hte, hcr, hrr, hd]
  · intro hdir
    constructor <;> simp [processEntry, hdir]

/-- Claim C10 witness: a readable csv entry with a failed file-type
query gets the diagnostic and the same resulting state as the same
entry with its type determined as a regular file. -/
theorem ftype_error_not_skipped_witness :
    ("Skipping directory " ++ "a.csv")
      ∈ (processEntry HeadersMode.Ignore 0 { headers := [], combined := [] }
        { name := "a.csv", ftype := FType.typeErr, readResult := Except.ok [["h"], ["x"]] }).2 ∧
    (processEntry HeadersMode.Ignore 0 { headers := [], combined := [] }
      { name := "a.csv", ftype := FType.typeErr, readResult := Except.ok [["h"], ["x"]] }).1
      = (processEntry HeadersMode.Ignore 0 { headers := [], combined := [] }
        { name := "a.csv", ftype := FType.file, readResult := Except.ok [["h"], ["x"]] }).1 :=
  (ftype_error_not_skipped HeadersMode.Ignore 0 { headers := [], combined := [] }
    { name := "a.csv", ftype := FType.typeErr, readResult := Except.ok [["h"], ["x"]] }).1 rfl
